import Mathlib

/-!
Shallow embedding of the mojilog logging library (Go) in Lean 4.

Source files embedded:
  - emoji module (EmojiHandler, getEmojiForLevel, getEmojiSpacing,
    getContextualEmoji, toLower, stringContains, SetupLogger)
  - global.go (InitGlobal, Get, logWithCaller, ParseLevel)
  - pretty.go (PrettyHandler: Enabled, Handle, formatAttrs, shouldSkipAttr,
    WithAttrs, WithGroup, SetupPrettyLogger)
  - pretty_json.go (PrettyJSONHandler: Enabled, Handle, shouldSkipJSONAttr,
    WithAttrs, WithGroup, SetupPrettyJSONLogger)

Modelling conventions:
  - Go log/slog levels are integers: Debug = -4, Info = 0, Warn = 4, Error = 8;
    we use Int.
  - Go strings are Lean Strings.  The emoji module's toLower and
    stringContains operate on bytes in Go; for ASCII needles and valid UTF-8
    haystacks this coincides with the character-wise versions used here
    (bytes of a multi-byte UTF-8 character are all at least 0x80, so they are
    neither uppercase ASCII letters nor bytes of an ASCII substring match).
  - External collaborators (the runewidth display-width library, the time
    formatter, runtime frame resolution, encoding/json parse) are passed as
    explicit function parameters: the claims hold for every choice of these.
  - fatih/color escape wrapping is external presentation and is not relevant
    to any claim; rendered output is modelled up to color escapes.
-/

namespace Mojilog

/-! ## Levels (log/slog) -/

def levelDebug : Int := -4
def levelInfo : Int := 0
def levelWarn : Int := 4
def levelError : Int := 8

/-! ## Emoji module: decoration resolver -/

/-- Embeds getEmojiForLevel: switch on level thresholds, highest first. -/
def getEmojiForLevel (level : Int) : String :=
  if level ≥ levelError then "❌"
  else if level ≥ levelWarn then "⚠️"
  else if level ≥ levelInfo then "ℹ️"
  else if level ≥ levelDebug then "🔍"
  else "📝"

/-- Embeds the byte-wise lowercase of toLower on one character:
ASCII uppercase letters are shifted by 32, everything else unchanged. -/
def lowerChar (c : Char) : Char :=
  if 'A' ≤ c ∧ c ≤ 'Z' then Char.ofNat (c.toNat + 32) else c

/-- Embeds toLower: map lowerChar over the string. -/
def toLower (s : String) : String :=
  String.mk (s.data.map lowerChar)

/-- Embeds stringContains: if the needle is longer than the haystack the
answer is false, otherwise scan every start index and compare the slice. -/
def stringContains (s substr : String) : Bool :=
  if substr.data.length > s.data.length then false
  else
    (List.range (s.data.length - substr.data.length + 1)).any
      (fun i => (s.data.drop i).take substr.data.length == substr.data)

/-- Embeds getContextualEmoji: prioritized case-insensitive substring match
over the fixed rule table; health-status first, then lifecycle, then
operations; no match yields the empty string.  The source's nested health
block (an outer "health" test around four status tests, falling through to
the later rules when no status word matches) is flattened here into four
guarded conjunctions, which is equivalent. -/
def getContextualEmoji (msg : String) : String :=
  let lowerMsg := toLower msg
  if stringContains lowerMsg "health" ∧ stringContains lowerMsg "excellent" then "💚"
  else if stringContains lowerMsg "health" ∧ stringContains lowerMsg "good" then "🟡"
  else if stringContains lowerMsg "health" ∧ stringContains lowerMsg "degraded" then "🟠"
  else if stringContains lowerMsg "health" ∧ stringContains lowerMsg "critical" then "🔴"
  else if stringContains lowerMsg "shutdown" ∨ stringContains lowerMsg "stopping" then "🛑"
  else if stringContains lowerMsg "start" ∨ stringContains lowerMsg "parser is running" then "🚀"
  else if stringContains lowerMsg "success" then "🎉"
  else if stringContains lowerMsg "cleanup" then "🧹"
  else if stringContains lowerMsg "config" ∨ stringContains lowerMsg "setting" then "⚙️"
  else if stringContains lowerMsg "connect" ∨ stringContains lowerMsg "websocket" then "🔌"
  else if stringContains lowerMsg "failed" then "❌"
  else if stringContains lowerMsg "table" ∨ stringContains lowerMsg "game" ∨ stringContains lowerMsg "casino" then "🎰"
  else if stringContains lowerMsg "statistics" ∨ stringContains lowerMsg "metrics" then "📊"
  else if stringContains lowerMsg "loading" ∨ stringContains lowerMsg "processing" then "⏳"
  else if stringContains lowerMsg "creating" then "🆕"
  else ""

/-- Embeds getEmojiSpacing.  The external runewidth.StringWidth call is the
parameter `width`: display width strictly above one cell yields a single
trailing space, otherwise a double space. -/
def getEmojiSpacing (width : String → Nat) (emoji : String) : String :=
  if width emoji > 1 then " " else "  "

/-- Embeds the message rewrite done by EmojiHandler.Handle before it
delegates: resolve the contextual emoji first, fall back to the level emoji,
and if the result is nonempty prepend it with its spacing. -/
def emojiHandleMessage (width : String → Nat) (msg : String) (level : Int) : String :=
  let contextEmoji := getContextualEmoji msg
  let emoji := if contextEmoji ≠ "" then contextEmoji else getEmojiForLevel level
  if emoji ≠ "" then emoji ++ getEmojiSpacing width emoji ++ msg else msg

/-! ## Records and attributes (log/slog record model) -/

/-- A Go attribute value as it reaches the handlers: strings, raw JSON
bytes (json.RawMessage), byte slices, ints, bools, or an opaque other
value.  Byte slices are modelled as their byte string. -/
inductive GoValue where
  | str (s : String)
  | rawJSON (bytes : String)
  | bytes (b : String)
  | vint (n : Int)
  | vbool (b : Bool)
  | other (tag : Nat)
deriving DecidableEq

/-- A slog.Attr: key/value pair. -/
structure Attr where
  key : String
  value : GoValue
deriving DecidableEq

/-- A slog.Record: time instant (opaque tick), level, message, captured
program counter (0 = none captured), and attributes in insertion order. -/
structure Record where
  time : Nat
  level : Int
  msg : String
  pc : Nat
  attrs : List Attr
deriving DecidableEq

/-- slog.HandlerOptions as read by the handlers: optional minimum level
(nil = none) and the AddSource flag.  The ReplaceAttr callback installed by
SetupPrettyLogger is passed to the slog options but never read by
PrettyHandler itself, so it does not appear here. -/
structure HandlerOptions where
  level : Option Int
  addSource : Bool
deriving DecidableEq

/-- A resolved runtime frame (runtime.CallersFrames output): full file
path, fully qualified function name, line.  An empty file means the frame
did not resolve. -/
structure Frame where
  file : String
  function : String
  line : Nat
deriving DecidableEq

/-! ## Attribute filter -/

/-- Embeds shouldSkipAttr of the text renderer: linear scan of its fixed
denylist. -/
def shouldSkipAttr (key : String) : Bool :=
  let skipKeys : List String :=
    ["service", "version", "metric_name", "metric_value", "environment", "pid"]
  skipKeys.any (fun skip => key == skip)

/-- Embeds shouldSkipJSONAttr of the structured renderer: linear scan of
its fixed denylist (same six keys, listed in a different order). -/
def shouldSkipJSONAttr (key : String) : Bool :=
  let skipKeys : List String :=
    ["service", "version", "environment", "pid", "metric_name", "metric_value"]
  skipKeys.any (fun skip => key == skip)

/-! ## Text renderer (PrettyHandler) -/

/-- PrettyHandler state: output sink identity, options, accumulated
attributes and groups, emoji flag.  The sync.Mutex only serializes Handle
and carries no observable state. -/
structure PrettyHandler where
  out : Nat
  opts : HandlerOptions
  attrs : List Attr
  groups : List String
  showEmoji : Bool
deriving DecidableEq

/-- Embeds NewPrettyHandler: nil options become the zero options; emoji
display is on. -/
def NewPrettyHandler (out : Nat) (opts : Option HandlerOptions) : PrettyHandler :=
  { out := out
    opts := opts.getD { level := none, addSource := false }
    attrs := []
    groups := []
    showEmoji := true }

/-- Embeds PrettyHandler.Enabled: minimum level defaults to info when the
options carry no level. -/
def PrettyHandler.Enabled (h : PrettyHandler) (level : Int) : Bool :=
  let minLevel := match h.opts.level with
    | some l => l
    | none => levelInfo
  level ≥ minLevel

/-- Embeds formatLevel: fixed five-character badge per level tier (color
escapes are external presentation and dropped). -/
def formatLevel (level : Int) : String :=
  if level ≥ levelError then "ERROR"
  else if level ≥ levelWarn then " WARN"
  else if level ≥ levelInfo then " INFO"
  else if level ≥ levelDebug then "DEBUG"
  else "TRACE"

/-- The suffix of a string after its last dot, the whole string when it has
no dot.  This is the Go idiom s[idx+1:] with idx = strings.LastIndex(s, ".")
and idx = -1 meaning no change. -/
def afterLastDot (s : String) : String :=
  String.mk (s.data.reverse.takeWhile (fun c => c ≠ '.')).reverse

/-- Embeds the Handle source segment of the text renderer: base filename,
base function name with package qualifier stripped after appending "()",
and line, joined by colons.  filepath.Base is the external parameter fb. -/
def prettySourceSegment (fb : String → String) (f : Frame) : String :=
  fb f.file ++ ":" ++ afterLastDot (fb f.function ++ "()") ++ ":" ++ toString f.line

/-- The key/value pairs the text renderer's formatAttrs emits, in order:
handler attributes first, then record attributes, each kept only when the
key is nonempty and not denylisted. -/
def PrettyHandler.attrPairs (h : PrettyHandler) (r : Record) : List (String × GoValue) :=
  ((h.attrs.filter (fun a => !(a.key == "") && !(shouldSkipAttr a.key))).map
      (fun a => (a.key, a.value))) ++
  ((r.attrs.filter (fun a => !(a.key == "") && !(shouldSkipAttr a.key))).map
      (fun a => (a.key, a.value)))

/-- Embeds formatAttrs: the kept pairs as key=value, space-joined; empty
output when nothing is kept.  fmtValue is the external fmt %v rendering of
a value. -/
def PrettyHandler.formatAttrs (fmtValue : GoValue → String)
    (h : PrettyHandler) (r : Record) : String :=
  let attrs := (h.attrPairs r).map (fun p => p.1 ++ "=" ++ fmtValue p.2)
  if attrs.isEmpty then "" else String.intercalate " " attrs

/-- Embeds PrettyHandler.Handle up to color escapes: one line of timestamp,
level badge, optional source segment, optional emoji with spacing, message,
attribute tail, newline.  fmtTime is the external local-time formatter,
resolveFrame the external runtime frame resolution, fb filepath.Base,
width runewidth.StringWidth, fmtValue the fmt %v value rendering. -/
def PrettyHandler.handleLine (fmtTime : Nat → String) (resolveFrame : Nat → Frame)
    (fb : String → String) (width : String → Nat) (fmtValue : GoValue → String)
    (h : PrettyHandler) (r : Record) : String :=
  let timestamp := fmtTime r.time
  let levelStr := formatLevel r.level
  let source :=
    if h.opts.addSource ∧ r.pc ≠ 0 then
      let f := resolveFrame r.pc
      if f.file ≠ "" then prettySourceSegment fb f else ""
    else ""
  let emoji :=
    if h.showEmoji then
      let contextEmoji := getContextualEmoji r.msg
      let e := if contextEmoji ≠ "" then contextEmoji else getEmojiForLevel r.level
      if e ≠ "" then e ++ getEmojiSpacing width e else e
    else ""
  let attrs := h.formatAttrs fmtValue r
  timestamp ++ " " ++ levelStr ++ " " ++ (if source ≠ "" then source else "") ++ " " ++
    emoji ++ r.msg ++ (if attrs ≠ "" then " " ++ attrs else "") ++ "\n"

/-- Embeds PrettyHandler.WithAttrs in state-passing form: the Go method
builds a fresh PrettyHandler literal and assigns nothing through the
receiver, so the call yields the new handler together with the receiver's
(unchanged) state after the call. -/
def PrettyHandler.WithAttrs (h : PrettyHandler) (attrs : List Attr) :
    PrettyHandler × PrettyHandler :=
  ({ out := h.out
     opts := h.opts
     attrs := h.attrs ++ attrs
     groups := h.groups
     showEmoji := h.showEmoji }, h)

/-- Embeds PrettyHandler.WithGroup in the same state-passing form. -/
def PrettyHandler.WithGroup (h : PrettyHandler) (name : String) :
    PrettyHandler × PrettyHandler :=
  ({ out := h.out
     opts := h.opts
     attrs := h.attrs
     groups := h.groups ++ [name]
     showEmoji := h.showEmoji }, h)

/-! ## Structured (JSON) renderer (PrettyJSONHandler) -/

/-- A parsed JSON document, the possible results of the external
encoding/json Unmarshal into interface. -/
inductive Json where
  | null
  | jbool (b : Bool)
  | num (n : Int)
  | jstr (s : String)
  | arr (elems : List Json)
  | obj (fields : List (String × Json))

/-- A value as stored into the attrs object by the structured renderer:
either a successfully parsed JSON structure, the literal string/byte
fallback, or the raw value for the default case. -/
inductive JVal where
  | parsed (j : Json)
  | lit (s : String)
  | raw (v : GoValue)

/-- PrettyJSONHandler state: output sink identity and options. -/
structure PrettyJSONHandler where
  out : Nat
  opts : HandlerOptions
deriving DecidableEq

/-- Embeds NewPrettyJSONHandler: nil options become the zero options. -/
def NewPrettyJSONHandler (out : Nat) (opts : Option HandlerOptions) : PrettyJSONHandler :=
  { out := out, opts := opts.getD { level := none, addSource := false } }

/-- Embeds PrettyJSONHandler.Enabled: minimum level defaults to info when
the options carry no level. -/
def PrettyJSONHandler.Enabled (h : PrettyJSONHandler) (level : Int) : Bool :=
  let minLevel := match h.opts.level with
    | some l => l
    | none => levelInfo
  level ≥ minLevel

/-- The external Go stdlib string-prefix test, character-wise (for the
ASCII needles used here this coincides with the Go byte-wise check). -/
def goHasPre (s pre : String) : Bool :=
  s.data.take pre.data.length == pre.data

/-- Embeds the per-value switch inside PrettyJSONHandler.Handle: raw JSON
bytes and byte slices are speculatively parsed with fallback to their
literal string; strings are parsed only when they begin with a brace or a
bracket, else kept literally; every other value is stored as-is.  parse is
the external json.Unmarshal. -/
def processJSONValue (parse : String → Option Json) : GoValue → JVal
  | GoValue.rawJSON v =>
      match parse v with
      | some p => JVal.parsed p
      | none => JVal.lit v
  | GoValue.bytes v =>
      match parse v with
      | some p => JVal.parsed p
      | none => JVal.lit v
  | GoValue.str v =>
      if goHasPre v "\x7b" || goHasPre v "[" then
        match parse v with
        | some p => JVal.parsed p
        | none => JVal.lit v
      else JVal.lit v
  | v => JVal.raw v

/-- The payload a value offers for speculative JSON parsing: the bytes of
raw JSON or byte-slice values, a string value only when it begins with a
brace or a bracket, nothing otherwise. -/
def speculativePayload : GoValue → Option String
  | GoValue.rawJSON v => some v
  | GoValue.bytes v => some v
  | GoValue.str v =>
      if goHasPre v "\x7b" || goHasPre v "[" then some v else none
  | _ => none

/-- Assignment into a Go map modelled on an association list: any earlier
binding of the key is dropped and the new binding appended. -/
def mapInsert (m : List (String × JVal)) (k : String) (v : JVal) :
    List (String × JVal) :=
  m.filter (fun p => !(p.1 == k)) ++ [(k, v)]

/-- Embeds the attrs-object construction loop of PrettyJSONHandler.Handle:
visit record attributes in order, keep non-denylisted keys, process each
value through the speculative-parse switch. -/
def jsonAttrs (parse : String → Option Json) (attrs : List Attr) :
    List (String × JVal) :=
  attrs.foldl
    (fun m a =>
      if shouldSkipJSONAttr a.key then m
      else mapInsert m a.key (processJSONValue parse a.value))
    []

/-- The nested source object of the structured renderer. -/
structure SourceObj where
  file : String
  line : Nat
  function : String

/-- The JSON log entry built by PrettyJSONHandler.Handle before
serialization.  The Go code adds the attrs key only when the attrs map is
nonempty; here the field is the (possibly empty) map itself. -/
structure JSONEntry where
  time : String
  level : String
  emoji : Option String
  msg : String
  source : Option SourceObj
  attrs : List (String × JVal)

/-- Embeds PrettyJSONHandler.Handle up to serialization: fixed time/level
fields, emoji from the contextual match with level fallback, message,
optional source object, processed attrs.  fmtTime is the external local
time formatter, levelName the slog Level.String, resolveFrame the runtime
frame resolution, fb filepath.Base, parse json.Unmarshal. -/
def PrettyJSONHandler.handleEntry (parse : String → Option Json)
    (fmtTime : Nat → String) (levelName : Int → String)
    (resolveFrame : Nat → Frame) (fb : String → String)
    (h : PrettyJSONHandler) (r : Record) : JSONEntry :=
  let emoji0 := getContextualEmoji r.msg
  let emoji := if emoji0 == "" then getEmojiForLevel r.level else emoji0
  { time := fmtTime r.time
    level := levelName r.level
    emoji := if emoji ≠ "" then some emoji else none
    msg := r.msg
    source :=
      if h.opts.addSource ∧ r.pc ≠ 0 then
        let f := resolveFrame r.pc
        if f.file ≠ "" then
          some { file := fb f.file, line := f.line, function := afterLastDot (fb f.function) }
        else none
      else none
    attrs := jsonAttrs parse r.attrs }

/-- Embeds the tail of PrettyJSONHandler.Handle: the entry is serialized
(the external json.MarshalIndent, total on this entry domain since every
stored value is marshalable) and written with one trailing newline; the
per-level color wrap is external presentation and dropped. -/
def PrettyJSONHandler.handleOutput (parse : String → Option Json)
    (fmtTime : Nat → String) (levelName : Int → String)
    (resolveFrame : Nat → Frame) (fb : String → String)
    (marshal : JSONEntry → String)
    (h : PrettyJSONHandler) (r : Record) : String :=
  marshal (h.handleEntry parse fmtTime levelName resolveFrame fb r) ++ "\n"

/-! ## Process logger lifecycle (global.go and SetupLogger) -/

/-- The handler bound to the process logger: the two external slog base
handlers (JSON and text), the two renderers of this package, and the
decoration wrapper around any handler. -/
inductive HandlerK where
  | jsonBase (out : Nat) (opts : HandlerOptions)
  | textBase (out : Nat) (opts : HandlerOptions)
  | prettyH (h : PrettyHandler)
  | prettyJSONH (h : PrettyJSONHandler)
  | emojiWrap (wrapped : HandlerK)
deriving DecidableEq

/-- Embeds SetupLogger: a slog JSON base handler for format "json", else a
slog text base handler, wrapped in the emoji handler. -/
def SetupLogger (out : Nat) (level : Int) (format : String) (addSource : Bool) : HandlerK :=
  let opts : HandlerOptions := { level := some level, addSource := addSource }
  let baseHandler := if format == "json" then HandlerK.jsonBase out opts else HandlerK.textBase out opts
  HandlerK.emojiWrap baseHandler

/-- Embeds SetupPrettyLogger: a PrettyHandler over the given sink with the
given level and AddSource. -/
def SetupPrettyLogger (out : Nat) (level : Int) (addSource : Bool) : HandlerK :=
  HandlerK.prettyH (NewPrettyHandler out (some { level := some level, addSource := addSource }))

/-- Embeds SetupPrettyJSONLogger. -/
def SetupPrettyJSONLogger (out : Nat) (level : Int) (addSource : Bool) : HandlerK :=
  HandlerK.prettyJSONH (NewPrettyJSONHandler out (some { level := some level, addSource := addSource }))

/-- Embeds the format switch of InitGlobal (the sink is os.Stdout,
modelled as sink id 0): "json" goes through SetupLogger, "pretty-json"
through SetupPrettyJSONLogger, everything else through SetupPrettyLogger. -/
def InitGlobal (level : Int) (format : String) (addSource : Bool) : HandlerK :=
  if format == "json" then SetupLogger 0 level format addSource
  else if format == "pretty-json" then SetupPrettyJSONLogger 0 level addSource
  else SetupPrettyLogger 0 level addSource

/-- Embeds the lazy default initialization performed by Get on an
uninitialized global: InitGlobal(slog.LevelInfo, "text", false). -/
def getDefaultHandler : HandlerK :=
  InitGlobal levelInfo "text" false

/-- Embeds the dispatched Enabled of the bound handler: the slog base
handlers follow the documented slog contract (options level, defaulting to
info), the package handlers their own Enabled, the wrapper delegates. -/
def HandlerK.Enabled : HandlerK → Int → Bool
  | HandlerK.jsonBase _ opts, l => l ≥ opts.level.getD levelInfo
  | HandlerK.textBase _ opts, l => l ≥ opts.level.getD levelInfo
  | HandlerK.prettyH h, l => h.Enabled l
  | HandlerK.prettyJSONH h, l => h.Enabled l
  | HandlerK.emojiWrap w, l => w.Enabled l

/-- The external collaborators a full render dispatch needs. -/
structure Collaborators where
  fmtTime : Nat → String
  fmtTimeJSON : Nat → String
  levelName : Int → String
  resolveFrame : Nat → Frame
  fb : String → String
  width : String → Nat
  fmtValue : GoValue → String
  marshal : JSONEntry → String
  parse : String → Option Json
  slogJSONRender : HandlerOptions → Record → String
  slogTextRender : HandlerOptions → Record → String

/-- The dispatched Handle of the bound handler, as the bytes it writes:
base handlers render externally, the package handlers render as embedded
above, and the emoji wrapper rewrites the message exactly as
EmojiHandler.Handle does before delegating. -/
def HandlerK.render (E : Collaborators) : HandlerK → Record → String
  | HandlerK.jsonBase _ opts, r => E.slogJSONRender opts r
  | HandlerK.textBase _ opts, r => E.slogTextRender opts r
  | HandlerK.prettyH h, r =>
      h.handleLine E.fmtTime E.resolveFrame E.fb E.width E.fmtValue r
  | HandlerK.prettyJSONH h, r =>
      h.handleOutput E.parse E.fmtTimeJSON E.levelName E.resolveFrame E.fb E.marshal r
  | HandlerK.emojiWrap w, r =>
      w.render E { r with msg := emojiHandleMessage E.width r.msg r.level }

/-- How many times a decoration is applied to one record along a handler
pipeline: the wrapper counts one when its resolved emoji is nonempty and
passes the rewritten record on; the text renderer counts one when its
emoji flag is on and its resolved emoji is nonempty; the structured
renderer counts one when its resolved emoji is nonempty; the external base
handlers never decorate. -/
def decorationApplications (width : String → Nat) : HandlerK → Record → Nat
  | HandlerK.jsonBase _ _, _ => 0
  | HandlerK.textBase _ _, _ => 0
  | HandlerK.prettyH h, r =>
      if h.showEmoji ∧
          (if getContextualEmoji r.msg ≠ "" then getContextualEmoji r.msg
           else getEmojiForLevel r.level) ≠ "" then 1 else 0
  | HandlerK.prettyJSONH _, r =>
      if (if getContextualEmoji r.msg == "" then getEmojiForLevel r.level
          else getContextualEmoji r.msg) ≠ "" then 1 else 0
  | HandlerK.emojiWrap w, r =>
      (if (if getContextualEmoji r.msg ≠ "" then getContextualEmoji r.msg
           else getEmojiForLevel r.level) ≠ "" then 1 else 0) +
      decorationApplications width w { r with msg := emojiHandleMessage width r.msg r.level }

/-- The observable outcome of one free-function log call: whether a
call-site program counter was resolved, the record constructed (if any),
and the byte strings written to the sink. -/
structure LogOutcome where
  callSiteResolved : Bool
  record : Option Record
  sinkWrites : List String

/-- Embeds logWithCaller for a bound global handler g: when the handler
rejects the level the function returns at once (no program counter
resolved, no record constructed, nothing written); otherwise the program
counter is captured, the record built from the current time, level,
message and arguments, and handed to the handler whose rendering is
written to the sink. -/
def logWithCaller (E : Collaborators) (g : HandlerK) (now : Nat) (pc : Nat)
    (level : Int) (msg : String) (args : List Attr) : LogOutcome :=
  if !(g.Enabled level) then
    { callSiteResolved := false, record := none, sinkWrites := [] }
  else
    let r : Record := { time := now, level := level, msg := msg, pc := pc, attrs := args }
    { callSiteResolved := true, record := some r, sinkWrites := [g.render E r] }

/-- A concrete choice of the external collaborators, for evaluating the
pipeline at concrete inputs. -/
def trivialCollaborators : Collaborators :=
  { fmtTime := fun _ => ""
    fmtTimeJSON := fun _ => ""
    levelName := fun _ => ""
    resolveFrame := fun _ => { file := "", function := "", line := 0 }
    fb := fun s => s
    width := fun _ => 1
    fmtValue := fun _ => ""
    marshal := fun _ => ""
    parse := fun _ => none
    slogJSONRender := fun _ _ => ""
    slogTextRender := fun _ _ => "" }

/-! ## Helper lemmas -/

lemma initGlobal_enabled_false (lvl : Int) (format : String) (src : Bool)
    (level : Int) (h : level < lvl) :
    (InitGlobal lvl format src).Enabled level = false := by
  unfold InitGlobal SetupLogger SetupPrettyLogger SetupPrettyJSONLogger
    NewPrettyHandler NewPrettyJSONHandler
  by_cases hj : format == "json" <;> by_cases hp : format == "pretty-json" <;>
    simp [hj, hp, HandlerK.Enabled, PrettyHandler.Enabled, PrettyJSONHandler.Enabled] <;>
    omega

lemma getEmojiForLevel_ne_empty (l : Int) : getEmojiForLevel l ≠ "" := by
  unfold getEmojiForLevel
  repeat' split
  all_goals decide

lemma resolvedEmoji_ne_empty (msg : String) (l : Int) :
    (if getContextualEmoji msg ≠ "" then getContextualEmoji msg
     else getEmojiForLevel l) ≠ "" := by
  by_cases h : getContextualEmoji msg = ""
  · simp [h, getEmojiForLevel_ne_empty]
  · simp [h]

lemma resolvedEmojiBeq_ne_empty (msg : String) (l : Int) :
    (if getContextualEmoji msg == "" then getEmojiForLevel l
     else getContextualEmoji msg) ≠ "" := by
  by_cases h : getContextualEmoji msg = ""
  · simp [h, getEmojiForLevel_ne_empty]
  · simp [h]

lemma resolvedEmojiEq_ne_empty (msg : String) (l : Int) :
    (if getContextualEmoji msg = "" then getEmojiForLevel l
     else getContextualEmoji msg) ≠ "" := by
  by_cases h : getContextualEmoji msg = "" <;> simp [h, getEmojiForLevel_ne_empty]

lemma getEmojiSpacing_length_pos (width : String → Nat) (e : String) :
    0 < (getEmojiSpacing width e).length := by
  unfold getEmojiSpacing
  split
  · decide
  · decide

lemma mem_keys_mapInsert {m : List (String × JVal)} {k : String} {v : JVal}
    {k0 : String} (h : k0 ∈ (mapInsert m k v).map Prod.fst) :
    k0 ∈ m.map Prod.fst ∨ k0 = k := by
  simp only [mapInsert, List.map_append, List.mem_append, List.mem_map,
    List.mem_filter] at h ⊢
  rcases h with ⟨p, ⟨hp, _⟩, hk0⟩ | h
  · exact Or.inl ⟨p, hp, hk0⟩
  · simp at h
    exact Or.inr h.symm

lemma jsonAttrs_keys_skip (parse : String → Option Json) (attrs : List Attr)
    (acc : List (String × JVal)) (k : String)
    (hsk : shouldSkipJSONAttr k = true) (hacc : k ∉ acc.map Prod.fst) :
    k ∉ (attrs.foldl
      (fun m a => if shouldSkipJSONAttr a.key then m
        else mapInsert m a.key (processJSONValue parse a.value)) acc).map Prod.fst := by
  induction attrs generalizing acc with
  | nil => simpa using hacc
  | cons a rest ih =>
    rw [List.foldl_cons]
    by_cases ha : shouldSkipJSONAttr a.key
    · rw [if_pos ha]
      exact ih acc hacc
    · rw [if_neg ha]
      apply ih
      intro hmem
      rcases mem_keys_mapInsert hmem with h1 | h2
      · exact hacc h1
      · exact ha (h2 ▸ hsk)

lemma mem_mapInsert_self (m : List (String × JVal)) (k : String) (v : JVal) :
    (k, v) ∈ mapInsert m k v := by
  simp [mapInsert]

lemma mem_mapInsert_of_ne {m : List (String × JVal)} {k : String} {v : JVal}
    (k' : String) (v' : JVal) (h : (k, v) ∈ m) (hne : k ≠ k') :
    (k, v) ∈ mapInsert m k' v' := by
  simp only [mapInsert, List.mem_append, List.mem_filter]
  exact Or.inl ⟨h, by simp [hne]⟩

lemma foldl_insert_preserve (parse : String → Option Json) (rest : List Attr) :
    ∀ (acc : List (String × JVal)) (k : String) (v : JVal),
    (k, v) ∈ acc → (∀ a ∈ rest, a.key ≠ k) →
    (k, v) ∈ rest.foldl
      (fun m a => if shouldSkipJSONAttr a.key then m
        else mapInsert m a.key (processJSONValue parse a.value)) acc := by
  induction rest with
  | nil =>
    intro acc k v h _
    simpa using h
  | cons a rest ih =>
    intro acc k v h hk
    rw [List.foldl_cons]
    by_cases ha : shouldSkipJSONAttr a.key
    · rw [if_pos ha]
      exact ih acc k v h (fun b hb => hk b (List.mem_cons_of_mem a hb))
    · rw [if_neg ha]
      refine ih _ k v ?_ (fun b hb => hk b (List.mem_cons_of_mem a hb))
      exact mem_mapInsert_of_ne _ _ h
        (fun he => hk a (List.mem_cons_self a rest) he.symm)

lemma jsonAttrs_mem (parse : String → Option Json) :
    ∀ (attrs : List Attr) (acc : List (String × JVal)) (a : Attr),
    a ∈ attrs → (attrs.map Attr.key).Nodup → shouldSkipJSONAttr a.key = false →
    (a.key, processJSONValue parse a.value) ∈ attrs.foldl
      (fun m a => if shouldSkipJSONAttr a.key then m
        else mapInsert m a.key (processJSONValue parse a.value)) acc := by
  intro attrs
  induction attrs with
  | nil =>
    intro acc a h
    cases h
  | cons b rest ih =>
    intro acc a hmem hnd hskip
    have hnd2 : (b.key ∉ rest.map Attr.key) ∧ (rest.map Attr.key).Nodup := by
      rw [List.map_cons, List.nodup_cons] at hnd
      exact hnd
    rw [List.foldl_cons]
    rcases List.mem_cons.mp hmem with heq | hrest
    · subst heq
      rw [if_neg (by simp [hskip])]
      apply foldl_insert_preserve
      · exact mem_mapInsert_self acc a.key _
      · intro c hc hck
        exact hnd2.1 (List.mem_map.mpr ⟨c, hc, hck⟩)
    · exact ih _ a hrest hnd2.2 hskip

lemma processJSONValue_payload {parse : String → Option Json} {val : GoValue}
    {v : String} (h : speculativePayload val = some v) :
    processJSONValue parse val =
      match parse v with
      | some p => JVal.parsed p
      | none => JVal.lit v := by
  cases val with
  | str s =>
    simp only [speculativePayload] at h
    by_cases hc : (goHasPre s "\x7b" || goHasPre s "[") = true
    · rw [if_pos hc] at h
      injection h with hv
      subst hv
      simp only [processJSONValue]
      rw [if_pos hc]
    · rw [if_neg hc] at h
      exact absurd h (by simp)
  | rawJSON b =>
    simp only [speculativePayload, Option.some.injEq] at h
    subst h
    simp [processJSONValue]
  | bytes b =>
    simp only [speculativePayload, Option.some.injEq] at h
    subst h
    simp [processJSONValue]
  | vint n => exact absurd h (by simp [speculativePayload])
  | vbool b => exact absurd h (by simp [speculativePayload])
  | other t => exact absurd h (by simp [speculativePayload])

lemma attrPairs_keys_not_skipped (h : PrettyHandler) (r : Record) (k : String)
    (hsk : shouldSkipAttr k = true) : k ∉ (h.attrPairs r).map Prod.fst := by
  intro hmem
  simp only [PrettyHandler.attrPairs, List.map_append, List.mem_append,
    List.map_map, List.mem_map, Function.comp, List.mem_filter,
    Bool.and_eq_true, Bool.not_eq_true', beq_eq_false_iff_ne] at hmem
  rcases hmem with ⟨w, hw, hky⟩ | ⟨w, hw, hky⟩ <;>
  · have hsf : shouldSkipAttr w.key = false := hw.2.2
    rw [hky, hsk] at hsf
    cases hsf

lemma append_newline_ne_empty (s : String) : s ++ "\n" ≠ "" := by
  intro h
  have hlen := congrArg String.length h
  rw [String.length_append] at hlen
  have h1 : ("\n" : String).length = 1 := rfl
  have h0 : ("" : String).length = 0 := rfl
  omega

/-! ## Claim theorems -/

/-- C7: getEmojiForLevel is total over the level order: levels at or above
error map to the alert symbol, [warn, error) to caution, [info, warn) to
information, [debug, info) to search, everything below debug to note; and
every level strictly above error maps to the same symbol as error. -/
theorem getEmojiForLevel_tiers (l : Int) :
    (l ≥ levelError → getEmojiForLevel l = "❌") ∧
    (levelWarn ≤ l ∧ l < levelError → getEmojiForLevel l = "⚠️") ∧
    (levelInfo ≤ l ∧ l < levelWarn → getEmojiForLevel l = "ℹ️") ∧
    (levelDebug ≤ l ∧ l < levelInfo → getEmojiForLevel l = "🔍") ∧
    (l < levelDebug → getEmojiForLevel l = "📝") ∧
    (l > levelError → getEmojiForLevel l = getEmojiForLevel levelError) := by
  unfold getEmojiForLevel levelError levelWarn levelInfo levelDebug
  refine ⟨?_, ?_, ?_, ?_, ?_, ?_⟩ <;> intro h
  · rw [if_pos h]
  · rw [if_neg (by omega), if_pos (by omega)]
  · rw [if_neg (by omega), if_neg (by omega), if_pos (by omega)]
  · rw [if_neg (by omega), if_neg (by omega), if_neg (by omega), if_pos (by omega)]
  · rw [if_neg (by omega), if_neg (by omega), if_neg (by omega), if_neg (by omega)]
  · rw [if_pos (by omega), if_pos (by omega)]

/-- Evaluation of the C7 tiers at sample levels, discharging each
hypothesis at a concrete input. -/
theorem getEmojiForLevel_tiers_check :
    getEmojiForLevel 12 = "❌" ∧
    getEmojiForLevel 4 = "⚠️" ∧
    getEmojiForLevel 0 = "ℹ️" ∧
    getEmojiForLevel (-4) = "🔍" ∧
    getEmojiForLevel (-8) = "📝" ∧
    getEmojiForLevel 12 = getEmojiForLevel levelError :=
  ⟨(getEmojiForLevel_tiers 12).1 (by decide),
   (getEmojiForLevel_tiers 4).2.1 (by decide),
   (getEmojiForLevel_tiers 0).2.2.1 (by decide),
   (getEmojiForLevel_tiers (-4)).2.2.2.1 (by decide),
   (getEmojiForLevel_tiers (-8)).2.2.2.2.1 (by decide),
   (getEmojiForLevel_tiers 12).2.2.2.2.2 (by decide)⟩

/-- C6: for every display-width measure, a symbol of measured width above
one cell gets a single trailing space, a symbol of width at most one cell a
double space, and the pad for width above one is strictly shorter than the
pad for width one. -/
theorem emoji_spacing_law (width : String → Nat) (e1 e2 : String) :
    (width e1 > 1 → getEmojiSpacing width e1 = " ") ∧
    (width e1 ≤ 1 → getEmojiSpacing width e1 = "  ") ∧
    (width e1 > 1 → width e2 = 1 →
      (getEmojiSpacing width e1).length < (getEmojiSpacing width e2).length) := by
  unfold getEmojiSpacing
  refine ⟨fun h => if_pos h, fun h => if_neg (by omega), fun h1 h2 => ?_⟩
  rw [if_pos h1, if_neg (by omega)]
  decide

/-- Evaluation of the C6 spacing law with the character count as the width
measure, discharging each hypothesis at a concrete input. -/
theorem emoji_spacing_law_check :
    getEmojiSpacing String.length "ab" = " " ∧
    getEmojiSpacing String.length "a" = "  " ∧
    (getEmojiSpacing String.length "ab").length <
      (getEmojiSpacing String.length "a").length :=
  ⟨(emoji_spacing_law String.length "ab" "a").1 (by decide),
   (emoji_spacing_law String.length "a" "a").2.1 (by decide),
   (emoji_spacing_law String.length "ab" "a").2.2 (by decide) (by decide)⟩

/-- C10: the level fallback emoji is nonempty for every level, so the
combined resolution is never empty and the decoration wrapper rewrites the
message of every record into symbol, spacing, original message — never the
original alone. -/
theorem emoji_wrapper_always_rewrites (width : String → Nat) (msg : String) (level : Int) :
    getEmojiForLevel level ≠ "" ∧
    emojiHandleMessage width msg level =
      (if getContextualEmoji msg ≠ "" then getContextualEmoji msg
       else getEmojiForLevel level) ++
      getEmojiSpacing width
        (if getContextualEmoji msg ≠ "" then getContextualEmoji msg
         else getEmojiForLevel level) ++ msg ∧
    emojiHandleMessage width msg level ≠ msg := by
  have he := resolvedEmoji_ne_empty msg level
  have heq : emojiHandleMessage width msg level =
      (if getContextualEmoji msg ≠ "" then getContextualEmoji msg
       else getEmojiForLevel level) ++
      getEmojiSpacing width
        (if getContextualEmoji msg ≠ "" then getContextualEmoji msg
         else getEmojiForLevel level) ++ msg := by
    unfold emojiHandleMessage
    rw [if_pos he]
  refine ⟨getEmojiForLevel_ne_empty level, heq, ?_⟩
  intro hcontra
  rw [heq] at hcontra
  have hl := congrArg String.length hcontra
  have hs := getEmojiSpacing_length_pos width
    (if getContextualEmoji msg ≠ "" then getContextualEmoji msg
     else getEmojiForLevel level)
  rw [String.length_append, String.length_append] at hl
  omega

/-- C5 counterexample: a message that contains the substring "shutdown"
but also matches the higher-priority health rule resolves to the health
symbol, not the shutdown symbol. -/
theorem shutdown_claim_counterexample :
    stringContains (toLower "shutdown health excellent") "shutdown" = true ∧
    getContextualEmoji "shutdown health excellent" = "💚" ∧
    ("💚" : String) ≠ "🛑" := by decide

/-- C5 amended: every message containing "shutdown" case-insensitively
that does not match a higher-priority health-status rule resolves to the
shutdown symbol, at every level — the level is never consulted when a
contextual match exists. -/
theorem shutdown_resolves_stop_sign (msg : String)
    (hsd : stringContains (toLower msg) "shutdown" = true)
    (hh : stringContains (toLower msg) "health" = true →
      stringContains (toLower msg) "excellent" = false ∧
      stringContains (toLower msg) "good" = false ∧
      stringContains (toLower msg) "degraded" = false ∧
      stringContains (toLower msg) "critical" = false) :
    getContextualEmoji msg = "🛑" ∧
    ∀ level : Int,
      (if getContextualEmoji msg ≠ "" then getContextualEmoji msg
       else getEmojiForLevel level) = "🛑" := by
  have hres : getContextualEmoji msg = "🛑" := by
    unfold getContextualEmoji
    by_cases hhe : stringContains (toLower msg) "health" = true
    · obtain ⟨h1, h2, h3, h4⟩ := hh hhe
      rw [if_neg (by simp [h1]), if_neg (by simp [h2]), if_neg (by simp [h3]),
        if_neg (by simp [h4]), if_pos (Or.inl hsd)]
    · have hfe : stringContains (toLower msg) "health" = false :=
        Bool.eq_false_iff.mpr hhe
      rw [if_neg (by simp [hfe]), if_neg (by simp [hfe]), if_neg (by simp [hfe]),
        if_neg (by simp [hfe]), if_pos (Or.inl hsd)]
  refine ⟨hres, fun level => ?_⟩
  simp [hres]

/-- Evaluation of the amended C5 at a concrete message and level. -/
theorem shutdown_resolves_stop_sign_check :
    stringContains (toLower "Shutdown requested") "shutdown" = true ∧
    getContextualEmoji "Shutdown requested" = "🛑" ∧
    (if getContextualEmoji "Shutdown requested" ≠ ""
     then getContextualEmoji "Shutdown requested"
     else getEmojiForLevel levelError) = "🛑" :=
  ⟨by decide,
   (shutdown_resolves_stop_sign "Shutdown requested" (by decide) (by decide)).1,
   (shutdown_resolves_stop_sign "Shutdown requested" (by decide) (by decide)).2 levelError⟩

/-- C1: for every level strictly below the configured minimum threshold a
free-function log call through logWithCaller resolves no call-site program
counter, constructs no record, and writes nothing to the sink: it returns
before any rendering. -/
theorem below_threshold_no_work (E : Collaborators) (lvl : Int) (format : String)
    (src : Bool) (now pc : Nat) (level : Int) (msg : String) (args : List Attr)
    (h : level < lvl) :
    logWithCaller E (InitGlobal lvl format src) now pc level msg args =
      { callSiteResolved := false, record := none, sinkWrites := [] } := by
  unfold logWithCaller
  rw [initGlobal_enabled_false lvl format src level h]
  simp

/-- Evaluation of C1: a debug call against an info-threshold text pipeline
does no work. -/
theorem below_threshold_no_work_check :
    (-4 : Int) < 0 ∧
    logWithCaller trivialCollaborators (InitGlobal 0 "text" false) 0 0 (-4) "x" [] =
      { callSiteResolved := false, record := none, sinkWrites := [] } :=
  ⟨by decide,
   below_threshold_no_work trivialCollaborators 0 "text" false 0 0 (-4) "x" [] (by decide)⟩

/-- C3: along each of the three pipelines InitGlobal can construct (json,
pretty-json, default text), decoration is applied to a record exactly
once: by the wrapper for the json pipeline, internally by the renderer for
the other two — never both. -/
theorem decoration_applied_exactly_once (width : String → Nat) (lvl : Int)
    (format : String) (src : Bool) (r : Record) :
    decorationApplications width (InitGlobal lvl format src) r = 1 := by
  unfold InitGlobal SetupLogger SetupPrettyLogger SetupPrettyJSONLogger
  by_cases hj : format == "json"
  · simp [hj, decorationApplications, resolvedEmojiEq_ne_empty]
  · by_cases hp : format == "pretty-json"
    · simp [hj, hp, decorationApplications, resolvedEmojiEq_ne_empty]
    · simp [hj, hp, NewPrettyHandler, decorationApplications, resolvedEmojiEq_ne_empty]

/-- C4 counterexample: the lazy default initialization run by Get selects
the pretty text pipeline, not the plain structured JSON pipeline the claim
states. -/
theorem get_default_not_structured :
    getDefaultHandler = SetupPrettyLogger 0 levelInfo false ∧
    getDefaultHandler ≠ InitGlobal levelInfo "json" false ∧
    getDefaultHandler ≠ SetupLogger 0 levelInfo "json" false := by decide

/-- C4 amended: Get on an uninitialized global initializes with minimum
level info, format "text" — which selects the default pretty text renderer
with decoration on — and call-site resolution disabled. -/
theorem get_default_config :
    getDefaultHandler =
      HandlerK.prettyH
        { out := 0
          opts := { level := some levelInfo, addSource := false }
          attrs := []
          groups := []
          showEmoji := true } := by decide

/-- C9: WithAttrs and WithGroup on the text renderer return a fresh
configuration sharing the receiver's sink, options and emoji flag, with
the attribute (resp. group) accumulation extended, and leave every
observable field of the receiver unchanged. -/
theorem derivation_fresh_value (h : PrettyHandler) (attrs : List Attr) (name : String) :
    ((h.WithAttrs attrs).1.out = h.out ∧
     (h.WithAttrs attrs).1.opts = h.opts ∧
     (h.WithAttrs attrs).1.attrs = h.attrs ++ attrs ∧
     (h.WithAttrs attrs).1.groups = h.groups ∧
     (h.WithAttrs attrs).1.showEmoji = h.showEmoji ∧
     (h.WithAttrs attrs).2 = h) ∧
    ((h.WithGroup name).1.out = h.out ∧
     (h.WithGroup name).1.opts = h.opts ∧
     (h.WithGroup name).1.attrs = h.attrs ∧
     (h.WithGroup name).1.groups = h.groups ++ [name] ∧
     (h.WithGroup name).1.showEmoji = h.showEmoji ∧
     (h.WithGroup name).2 = h) :=
  ⟨⟨rfl, rfl, rfl, rfl, rfl, rfl⟩, ⟨rfl, rfl, rfl, rfl, rfl, rfl⟩⟩

/-- C2: the two renderers apply the same skip predicate, and a denylisted
key never appears among the rendered attribute keys of the text renderer
or of the structured renderer, for any value and any handler state. -/
theorem denylist_consistent (k : String) :
    shouldSkipAttr k = shouldSkipJSONAttr k ∧
    (k ∈ ["service", "version", "environment", "pid", "metric_name", "metric_value"] →
      (∀ (h : PrettyHandler) (r : Record), k ∉ (h.attrPairs r).map Prod.fst) ∧
      (∀ (parse : String → Option Json) (attrs : List Attr),
        k ∉ (jsonAttrs parse attrs).map Prod.fst)) := by
  have hbb : ∀ b1 b2 : Bool, (b1 = true ↔ b2 = true) → b1 = b2 := by decide
  constructor
  · apply hbb
    simp only [shouldSkipAttr, shouldSkipJSONAttr, List.any_cons, List.any_nil,
      Bool.or_eq_true, beq_iff_eq, Bool.false_eq_true, or_false]
    tauto
  · intro hk
    have hskip : shouldSkipAttr k = true := by fin_cases hk <;> decide
    have hskipJ : shouldSkipJSONAttr k = true := by fin_cases hk <;> decide
    constructor
    · intro h r
      exact attrPairs_keys_not_skipped h r k hskip
    · intro parse attrs
      exact jsonAttrs_keys_skip parse attrs [] k hskipJ (by simp)

/-- Evaluation of C2 at the key "service", a concrete handler state and a
concrete record. -/
theorem denylist_consistent_check :
    ("service" ∈ ["service", "version", "environment", "pid", "metric_name",
      "metric_value"]) ∧
    "service" ∉ ((NewPrettyHandler 0 none).attrPairs
      { time := 0, level := 0, msg := "", pc := 0,
        attrs := [{ key := "service", value := GoValue.str "api" }] }).map Prod.fst ∧
    "service" ∉ (jsonAttrs (fun _ => none)
      [{ key := "service", value := GoValue.str "api" }]).map Prod.fst :=
  ⟨by decide,
   ((denylist_consistent "service").2 (by decide)).1 (NewPrettyHandler 0 none)
     { time := 0, level := 0, msg := "", pc := 0,
       attrs := [{ key := "service", value := GoValue.str "api" }] },
   ((denylist_consistent "service").2 (by decide)).2 (fun _ => none)
     [{ key := "service", value := GoValue.str "api" }]⟩

/-- C8: in the structured renderer, an attribute whose value offers a
speculative JSON payload (raw encoded bytes, a byte slice, or a string
beginning with a brace or bracket) is embedded parsed on parse success and
kept literal on parse failure; the failure is local — the record's fixed
fields are still emitted, every other kept attribute is still processed,
and a nonempty serialized block is still written. -/
theorem speculative_parse_local_fallback
    (parse : String → Option Json) (fmtTime : Nat → String) (levelName : Int → String)
    (resolveFrame : Nat → Frame) (fb : String → String) (marshal : JSONEntry → String)
    (h : PrettyJSONHandler) (r : Record) (a : Attr) (v : String)
    (hnd : (r.attrs.map Attr.key).Nodup)
    (hmem : a ∈ r.attrs)
    (hskip : shouldSkipJSONAttr a.key = false)
    (hspec : speculativePayload a.value = some v) :
    (parse v = none →
      (a.key, JVal.lit v) ∈
        (h.handleEntry parse fmtTime levelName resolveFrame fb r).attrs) ∧
    (∀ p, parse v = some p →
      (a.key, JVal.parsed p) ∈
        (h.handleEntry parse fmtTime levelName resolveFrame fb r).attrs) ∧
    (h.handleEntry parse fmtTime levelName resolveFrame fb r).msg = r.msg ∧
    (h.handleEntry parse fmtTime levelName resolveFrame fb r).time = fmtTime r.time ∧
    (h.handleEntry parse fmtTime levelName resolveFrame fb r).level = levelName r.level ∧
    (∀ b ∈ r.attrs, shouldSkipJSONAttr b.key = false →
      (b.key, processJSONValue parse b.value) ∈
        (h.handleEntry parse fmtTime levelName resolveFrame fb r).attrs) ∧
    h.handleOutput parse fmtTime levelName resolveFrame fb marshal r ≠ "" := by
  have hattrs : (h.handleEntry parse fmtTime levelName resolveFrame fb r).attrs =
      jsonAttrs parse r.attrs := rfl
  have hbase := jsonAttrs_mem parse r.attrs [] a hmem hnd hskip
  rw [processJSONValue_payload hspec] at hbase
  refine ⟨?_, ?_, rfl, rfl, rfl, ?_, ?_⟩
  · intro hp
    rw [hattrs]
    rw [hp] at hbase
    exact hbase
  · intro p hp
    rw [hattrs]
    rw [hp] at hbase
    exact hbase
  · intro b hb hbskip
    rw [hattrs]
    exact jsonAttrs_mem parse r.attrs [] b hb hnd hbskip
  · exact append_newline_ne_empty _

/-- Evaluation of C8 at a concrete record whose one attribute is a
brace-led string and a parse that always fails: the literal string is
kept. -/
theorem speculative_parse_local_fallback_check :
    ("payload", JVal.lit "\x7b bad json") ∈
      ((NewPrettyJSONHandler 0 none).handleEntry (fun _ => none) (fun _ => "")
        (fun _ => "") (fun _ => { file := "", function := "", line := 0 })
        (fun s => s)
        { time := 0, level := 0, msg := "m", pc := 0,
          attrs := [{ key := "payload", value := GoValue.str "\x7b bad json" }] }).attrs :=
  (speculative_parse_local_fallback (fun _ => none) (fun _ => "") (fun _ => "")
    (fun _ => { file := "", function := "", line := 0 }) (fun s => s) (fun _ => "")
    (NewPrettyJSONHandler 0 none)
    { time := 0, level := 0, msg := "m", pc := 0,
      attrs := [{ key := "payload", value := GoValue.str "\x7b bad json" }] }
    { key := "payload", value := GoValue.str "\x7b bad json" }
    "\x7b bad json" (by decide) (by decide) (by decide) (by decide)).1 rfl

end Mojilog
